import Mathlib

/-! Codec / stream-type registry of the MPEG PS and TS containers (`ps.go`).

A shallow embedding of `ps.go`: the stream-type constants, the two codec tables
`SupportedCodecs` (PS) and `TSSupportedCodecs` (TS), the classification table
`streamTypes` built by `init`, and the six lookups over them.

Conventions of the embedding

* Go's `int` and `utils.AVCodecID` are `Int`; the code only compares them.
* A Go map is the list of its entries, keys pairwise distinct (`MapKeysDistinct`);
  a map literal is the list of its entries in source order.
* `for k, v := range m` visits every entry once, in an order Go leaves
  unspecified: a `RangeOrder` picks that order, and a statement about the loop
  quantifies over every `RangeOrder`.
* The package-level variables are an explicit state `Globals`; each exported
  operation takes the state and returns its result together with the state.
* The constants of the external package `utils` and the `StreamID…` constants of
  the PES part of this package are not in `ps.go`; they are parameters
  (`Utils`, `StreamIDs`), and what a theorem needs of them is a hypothesis.
-/

namespace Mpeg

/-! ## Types and constants -/

/-- Codec identifier `utils.AVCodecID`: an integer type, used as a map key and
compared with `>=`. -/
abbrev AVCodecID := Int

/-- Modelled from the spec: the type `utils.AVMediaType` of the external package
`utils`, "enumerated classification — Audio, Video, or Unknown". -/
inductive AVMediaType where
  | AVMediaTypeUnknown
  | AVMediaTypeVideo
  | AVMediaTypeAudio
  deriving DecidableEq, Repr

/-- The constants of package `utils` that `ps.go` names. Their values are not
part of `ps.go`, so they are parameters of the embedding. -/
structure Utils where
  AVCodecIdNONE : AVCodecID
  AVCodecIdFIRSTAUDIO : AVCodecID
  AVCodecIdMP3 : AVCodecID
  AVCodecIdAAC : AVCodecID
  AVCodecIdPCMALAW : AVCodecID
  AVCodecIdPCMMULAW : AVCodecID
  AVCodecIdADPCMG722 : AVCodecID
  AVCodecIdADPCMG726 : AVCodecID
  AVCodecIdPCMS16LE : AVCodecID
  AVCodecIdH264 : AVCodecID
  AVCodecIdHEVC : AVCodecID
  AVCodecIdMPEG4 : AVCodecID
  deriving DecidableEq, Repr

/-- The `StreamID…` constants that `ps.go` names; they are declared in another
file of the package, so they are parameters of the embedding. -/
structure StreamIDs where
  StreamIDAudio : Int
  StreamIDVideo : Int
  StreamIDH624 : Int
  StreamIDPrivateStream1 : Int
  deriving DecidableEq, Repr

def StreamTypeVideoMPEG1 : Int := 0x01
def StreamTypeVideoMPEG2 : Int := 0x02
def StreamTypeAudioMPEG1 : Int := 0x03
def StreamTypeAudioMPEG2 : Int := 0x04
def StreamTypePrivateSection : Int := 0x05
def StreamTypePrivateData : Int := 0x06
def StreamTypeAudioAAC : Int := 0x0F
def StreamTypeAudioMpeg4AAC : Int := 0x11
def StreamTypeVideoMpeg4 : Int := 0x10
def StreamTypeVideoH264 : Int := 0x1B
def StreamTypeVideoHEVC : Int := 0x24
def StreamTypeVideoCAVS : Int := 0x42
def StreamTypeAudioAC3 : Int := 0x81
def StreamTypeAudioG711A : Int := 0x90
def StreamTypeAudioG711U : Int := 0x91
def StreamTypeAudioG722 : Int := 0x92
def StreamTypeAudioG726 : Int := 0x96
def StreamTypeAudioPCM : Int := 0x9C
def StreamTypeVideoSVAC : Int := 0x80

/-- A value of type `interface{}`: its dynamic type is `int`, or it is some
other value (a string stands for every dynamic type that is not `int`), or it is
the nil interface. -/
inductive Iface where
  | int (v : Int)
  | str (v : String)
  | nil
  deriving DecidableEq, Repr

/-- The two errors `ps.go` builds with `fmt.Errorf`, each with the argument of
its format string: `"unsupported codec: %s"` and
`"the stream type %d is not implemented"`. -/
inductive GoError where
  | unsupportedCodec (id : AVCodecID)
  | notImplemented (streamType : Int)
  deriving DecidableEq, Repr

/-- How a call ends: it returns its results, or a run-time panic unwinds it. -/
inductive Outcome (α : Type) where
  | returns (a : α)
  | panics
  deriving DecidableEq, Repr

/-- A table `map[utils.AVCodecID]interface{}`, as the list of its entries. -/
abbrev Codecs := List (AVCodecID × Iface)

/-- The keys of a codec table. -/
def Codecs.keys (codecs : Codecs) : List AVCodecID := codecs.map Prod.fst

/-- The map invariant: no key occurs twice. -/
def MapKeysDistinct (codecs : Codecs) : Prop := codecs.keys.Nodup

instance (codecs : Codecs) : Decidable (MapKeysDistinct codecs) := by
  unfold MapKeysDistinct; infer_instance

/-- An order in which a `range` loop may visit the entries of a map: some
arrangement of exactly the entries of the map. -/
structure RangeOrder where
  enum : Codecs → Codecs
  perm : ∀ m : Codecs, (enum m).Perm m

/-- The range order that visits the entries as the map literal lists them. -/
def RangeOrder.source : RangeOrder := ⟨fun m => m, fun m => List.Perm.refl m⟩

/-- The range order that visits the entries last to first. -/
def RangeOrder.reversed : RangeOrder := ⟨List.reverse, fun m => List.reverse_perm m⟩

/-- The range order that visits the entries stored under the key `k` first and
the other entries after them. -/
def RangeOrder.keyFirst (k : AVCodecID) : RangeOrder :=
  ⟨fun m => m.filter (fun e => e.1 == k) ++ m.filter (fun e => !(e.1 == k)),
    fun m => List.filter_append_perm (fun e => e.1 == k) m⟩

/-- The index expression `m[k]` on a `map[int]int`: the value stored under `k`,
and the zero value `0` when `k` is not a key (also on the nil map). -/
def intMapIndex (m : List (Int × Int)) (k : Int) : Int :=
  match m.lookup k with
  | some v => v
  | none => 0

/-! ## Package state -/

/-- The package-level variables of `ps.go`. -/
structure Globals where
  streamTypes : List (Int × Int)
  SupportedCodecs : Codecs
  TSSupportedCodecs : Codecs
  deriving DecidableEq, Repr

/-- The map literal that initialises `SupportedCodecs` (PS). -/
def SupportedCodecs (u : Utils) : Codecs :=
  [ (u.AVCodecIdMP3, .int StreamTypeAudioMPEG1),
    (u.AVCodecIdAAC, .int StreamTypeAudioAAC),
    (u.AVCodecIdPCMALAW, .int StreamTypeAudioG711A),
    (u.AVCodecIdPCMMULAW, .int StreamTypeAudioG711U),
    (u.AVCodecIdADPCMG722, .int StreamTypeAudioG722),
    (u.AVCodecIdADPCMG726, .int StreamTypeAudioG726),
    (u.AVCodecIdPCMS16LE, .int StreamTypeAudioPCM),
    (u.AVCodecIdH264, .int StreamTypeVideoH264),
    (u.AVCodecIdHEVC, .int StreamTypeVideoHEVC),
    (u.AVCodecIdMPEG4, .int StreamTypeVideoMpeg4) ]

/-- The map literal that initialises `TSSupportedCodecs` (TS). -/
def TSSupportedCodecs (u : Utils) : Codecs :=
  [ (u.AVCodecIdAAC, .int StreamTypeAudioAAC),
    (u.AVCodecIdMP3, .int StreamTypeAudioMPEG1),
    (u.AVCodecIdH264, .int StreamTypeVideoH264),
    (u.AVCodecIdHEVC, .int StreamTypeVideoHEVC),
    (u.AVCodecIdMPEG4, .int StreamTypeVideoMpeg4) ]

/-- The package state once the `var` block has run and before `init`:
`streamTypes` is still the nil map. -/
def packageVars (u : Utils) : Globals :=
  { streamTypes := [],
    SupportedCodecs := SupportedCodecs u,
    TSSupportedCodecs := TSSupportedCodecs u }

/-- The function `init`: it assigns the classification table to `streamTypes`. -/
def init (p : StreamIDs) (g : Globals) : Globals :=
  { g with
    streamTypes :=
      [ (StreamTypeVideoMPEG1, p.StreamIDVideo),
        (StreamTypeVideoMPEG2, p.StreamIDVideo),
        (StreamTypeAudioMPEG1, p.StreamIDAudio),
        (StreamTypeAudioMPEG2, p.StreamIDAudio),
        (StreamTypePrivateSection, p.StreamIDPrivateStream1),
        (StreamTypePrivateData, p.StreamIDPrivateStream1),
        (StreamTypeAudioAAC, p.StreamIDAudio),
        (StreamTypeVideoMpeg4, p.StreamIDVideo),
        (StreamTypeVideoH264, p.StreamIDVideo),
        (StreamTypeVideoHEVC, p.StreamIDVideo),
        (StreamTypeVideoCAVS, p.StreamIDVideo),
        (StreamTypeAudioAC3, p.StreamIDAudio) ] }

/-- The package state every caller sees: the `var` block, then `init`. -/
def initialized (u : Utils) (p : StreamIDs) : Globals := init p (packageVars u)

/-! ## Operations -/

/-- The method `StreamType.isAudio`. -/
def isAudio (p : StreamIDs) (s : Int) (g : Globals) : Bool × Globals :=
  (intMapIndex g.streamTypes s == p.StreamIDAudio, g)

/-- The method `StreamType.isVideo`. -/
def isVideo (p : StreamIDs) (s : Int) (g : Globals) : Bool × Globals :=
  (intMapIndex g.streamTypes s == p.StreamIDVideo
    || intMapIndex g.streamTypes s == p.StreamIDH624, g)

/-- The function `AVCodecID2StreamTypeFromCodecs`: the comma-ok lookup
`codecs[id]`, then the type assertion `streamType.(int)`, which panics on a
value whose dynamic type is not `int`. -/
def AVCodecID2StreamTypeFromCodecs (id : AVCodecID) (codecs : Codecs) :
    Outcome (Int × Option GoError) :=
  match codecs.lookup id with
  | some streamType =>
    match streamType with
    | .int n => .returns (n, none)
    | _ => .panics
  | none => .returns (-1, some (.unsupportedCodec id))

/-- The body of the `range` loop of `StreamType2AVCodecIDFromCodecs` run over
the entries in the order given, followed by the statement after the loop. The
comparison `v != streamType` converts `streamType` to an interface value. -/
def rangeScan (u : Utils) (streamType : Int) :
    List (AVCodecID × Iface) → AVCodecID × AVMediaType × Option GoError
  | [] => (u.AVCodecIdNONE, .AVMediaTypeUnknown, some (.notImplemented streamType))
  | (k, v) :: rest =>
    if v != Iface.int streamType then
      rangeScan u streamType rest
    else
      let mediaType : AVMediaType :=
        if k >= u.AVCodecIdFIRSTAUDIO then .AVMediaTypeAudio else .AVMediaTypeVideo
      (k, mediaType, none)

/-- The function `StreamType2AVCodecIDFromCodecs`, its `range` loop visiting the
entries of `codecs` in the order `ρ` picks. -/
def StreamType2AVCodecIDFromCodecs (u : Utils) (ρ : RangeOrder) (streamType : Int)
    (codecs : Codecs) : AVCodecID × AVMediaType × Option GoError :=
  rangeScan u streamType (ρ.enum codecs)

/-- The function `AVCodecID2StreamType` (PS). -/
def AVCodecID2StreamType (id : AVCodecID) (g : Globals) :
    Outcome (Int × Option GoError) × Globals :=
  (AVCodecID2StreamTypeFromCodecs id g.SupportedCodecs, g)

/-- The function `StreamType2AVCodecID` (PS). -/
def StreamType2AVCodecID (u : Utils) (ρ : RangeOrder) (streamType : Int) (g : Globals) :
    (AVCodecID × AVMediaType × Option GoError) × Globals :=
  (StreamType2AVCodecIDFromCodecs u ρ streamType g.SupportedCodecs, g)

/-- The function `TSAVCodecID2StreamType` (TS). -/
def TSAVCodecID2StreamType (id : AVCodecID) (g : Globals) :
    Outcome (Int × Option GoError) × Globals :=
  (AVCodecID2StreamTypeFromCodecs id g.TSSupportedCodecs, g)

/-- The function `TSStreamType2AVCodecID` (TS). -/
def TSStreamType2AVCodecID (u : Utils) (ρ : RangeOrder) (streamType : Int) (g : Globals) :
    (AVCodecID × AVMediaType × Option GoError) × Globals :=
  (StreamType2AVCodecIDFromCodecs u ρ streamType g.TSSupportedCodecs, g)

/-- The video test without its H.264 disjunct, `streamTypes[s] == StreamIDVideo`:
the reading of `isVideo` that `isVideo` is compared with. -/
def isVideoClassOnly (p : StreamIDs) (s : Int) (g : Globals) : Bool × Globals :=
  (intMapIndex g.streamTypes s == p.StreamIDVideo, g)

/-! ## Predicates on tables -/

/-- Every value of the table has dynamic type `int`. -/
def Codecs.AllInts (codecs : Codecs) : Prop := ∀ e ∈ codecs, ∃ n, e.2 = Iface.int n

/-- No two codec identifiers of the table map to the same value. -/
def Codecs.Injective (codecs : Codecs) : Prop :=
  ∀ k₁ k₂ v, (k₁, v) ∈ codecs → (k₂, v) ∈ codecs → k₁ = k₂

/-! ## Assumptions on the external constants, and sample values -/

/-- The codec identifiers that key the PS table are pairwise distinct (Go
rejects a map literal with a duplicate constant key). -/
def Utils.Distinct (u : Utils) : Prop := MapKeysDistinct (SupportedCodecs u)

instance (u : Utils) : Decidable u.Distinct := by
  unfold Utils.Distinct; infer_instance

/-- The audio codecs of the tables. -/
def Utils.audioIds (u : Utils) : List AVCodecID :=
  [u.AVCodecIdMP3, u.AVCodecIdAAC, u.AVCodecIdPCMALAW, u.AVCodecIdPCMMULAW,
    u.AVCodecIdADPCMG722, u.AVCodecIdADPCMG726, u.AVCodecIdPCMS16LE]

/-- The video codecs of the tables. -/
def Utils.videoIds (u : Utils) : List AVCodecID :=
  [u.AVCodecIdH264, u.AVCodecIdHEVC, u.AVCodecIdMPEG4]

/-- The ordering contract of the `utils` enumeration: every audio codec of the
tables is at or above `AVCodecIdFIRSTAUDIO`, every video codec is below it. -/
def Utils.Partitioned (u : Utils) : Prop :=
  (∀ c ∈ u.audioIds, u.AVCodecIdFIRSTAUDIO ≤ c) ∧
  (∀ c ∈ u.videoIds, c < u.AVCodecIdFIRSTAUDIO)

instance (u : Utils) : Decidable u.Partitioned := by
  unfold Utils.Partitioned; infer_instance

/-- The stream-id classes are told apart: the audio class differs from both
video classes, the private class from all three, and none of the audio and video
classes is `0`, the value a missing key of `streamTypes` reads as. -/
def StreamIDs.Separated (p : StreamIDs) : Prop :=
  p.StreamIDAudio ≠ p.StreamIDVideo ∧ p.StreamIDAudio ≠ p.StreamIDH624 ∧
  p.StreamIDPrivateStream1 ≠ p.StreamIDAudio ∧
  p.StreamIDPrivateStream1 ≠ p.StreamIDVideo ∧
  p.StreamIDPrivateStream1 ≠ p.StreamIDH624 ∧
  p.StreamIDAudio ≠ 0 ∧ p.StreamIDVideo ≠ 0 ∧ p.StreamIDH624 ≠ 0

instance (p : StreamIDs) : Decidable p.Separated := by
  unfold StreamIDs.Separated; infer_instance

/-- Sample values for the `utils` constants, numbered in the manner of FFmpeg's
`codec_id.h`, from which the enumeration derives: video codecs are small
numbers, audio codecs start at `0x10000`. -/
def sampleUtils : Utils :=
  { AVCodecIdNONE := 0,
    AVCodecIdFIRSTAUDIO := 0x10000,
    AVCodecIdMP3 := 0x15001,
    AVCodecIdAAC := 0x15002,
    AVCodecIdPCMALAW := 0x10007,
    AVCodecIdPCMMULAW := 0x10006,
    AVCodecIdADPCMG722 := 0x1101C,
    AVCodecIdADPCMG726 := 0x1100B,
    AVCodecIdPCMS16LE := 0x10000,
    AVCodecIdH264 := 27,
    AVCodecIdHEVC := 173,
    AVCodecIdMPEG4 := 12 }

/-- Sample values for the `StreamID…` constants: the PES stream ids of
ISO/IEC 13818-1 (`0xC0` first audio stream, `0xE0` first video stream,
`0xBD` private stream 1). -/
def sampleStreamIDs : StreamIDs :=
  { StreamIDAudio := 0xC0,
    StreamIDVideo := 0xE0,
    StreamIDH624 := 0xE2,
    StreamIDPrivateStream1 := 0xBD }

/-! ## Lemmas on map lookup -/

theorem lookup_eq_none_iff (codecs : Codecs) (id : AVCodecID) :
    codecs.lookup id = none ↔ id ∉ codecs.keys := by
  induction codecs with
  | nil => simp [Codecs.keys]
  | cons e rest ih =>
    obtain ⟨k, v⟩ := e
    by_cases hk : id = k
    · subst hk; simp [List.lookup, Codecs.keys]
    · have hb : (id == k) = false := by simpa using hk
      simp only [List.lookup, hb, ih]
      simp [Codecs.keys, hk]

theorem mem_of_lookup_eq_some (codecs : Codecs) (id : AVCodecID) (v : Iface)
    (h : codecs.lookup id = some v) : (id, v) ∈ codecs := by
  induction codecs with
  | nil => simp at h
  | cons e rest ih =>
    obtain ⟨k, w⟩ := e
    by_cases hk : id = k
    · subst hk
      simp [List.lookup] at h
      simp [h]
    · have hb : (id == k) = false := by simpa using hk
      simp only [List.lookup, hb] at h
      exact List.mem_cons_of_mem _ (ih h)

theorem lookup_eq_some_of_mem (codecs : Codecs) (hd : MapKeysDistinct codecs)
    (id : AVCodecID) (v : Iface) (h : (id, v) ∈ codecs) : codecs.lookup id = some v := by
  induction codecs with
  | nil => simp at h
  | cons e rest ih =>
    obtain ⟨k, w⟩ := e
    have hd' : k ∉ Codecs.keys rest ∧ MapKeysDistinct rest := by
      simpa [MapKeysDistinct, Codecs.keys] using hd
    rcases List.mem_cons.mp h with heq | hmem
    · cases heq; simp [List.lookup]
    · have hk : id ≠ k := by
        intro hk; subst hk
        exact hd'.1 (List.mem_map.mpr ⟨(id, v), hmem, rfl⟩)
      have hb : (id == k) = false := by simpa using hk
      simp only [List.lookup, hb]
      exact ih hd'.2 hmem

theorem intMapIndex_nil (s : Int) : intMapIndex [] s = 0 := rfl

theorem intMapIndex_cons (k v : Int) (m : List (Int × Int)) (s : Int) :
    intMapIndex ((k, v) :: m) s = if s = k then v else intMapIndex m s := by
  by_cases h : s = k
  · subst h; simp [intMapIndex]
  · have hb : (s == k) = false := by simpa using h
    simp [intMapIndex, List.lookup, hb, h]

theorem intMapIndex_absent (m : List (Int × Int)) (s : Int) (h : s ∉ m.map Prod.fst) :
    intMapIndex m s = 0 := by
  induction m with
  | nil => rfl
  | cons e rest ih =>
    obtain ⟨k, v⟩ := e
    have hk : s ≠ k := fun hk => h (by simp [hk])
    have hrest : s ∉ rest.map Prod.fst := fun hr => h (by simp at hr ⊢; exact Or.inr hr)
    rw [intMapIndex_cons, if_neg hk, ih hrest]

theorem forward_success_iff (codecs : Codecs) (id : AVCodecID) (t : Int) :
    AVCodecID2StreamTypeFromCodecs id codecs = .returns (t, none)
      ↔ codecs.lookup id = some (Iface.int t) := by
  unfold AVCodecID2StreamTypeFromCodecs
  cases hl : codecs.lookup id with
  | none => simp
  | some v => cases v <;> simp

/-! ## Lemmas on the range scan -/

theorem rangeScan_no_match (u : Utils) (t : Int) (l : List (AVCodecID × Iface))
    (h : ∀ e ∈ l, e.2 ≠ Iface.int t) :
    rangeScan u t l = (u.AVCodecIdNONE, .AVMediaTypeUnknown, some (.notImplemented t)) := by
  induction l with
  | nil => rfl
  | cons e rest ih =>
    obtain ⟨k, v⟩ := e
    have hv : v ≠ Iface.int t := h (k, v) (List.mem_cons_self _ _)
    have hrest : ∀ e ∈ rest, e.2 ≠ Iface.int t := fun e he => h e (List.mem_cons_of_mem _ he)
    simp [rangeScan, hv, ih hrest]

theorem rangeScan_first_match (u : Utils) (t : Int) (pre post : List (AVCodecID × Iface))
    (k : AVCodecID) (h : ∀ e ∈ pre, e.2 ≠ Iface.int t) :
    rangeScan u t (pre ++ (k, Iface.int t) :: post)
      = (k, if k ≥ u.AVCodecIdFIRSTAUDIO then .AVMediaTypeAudio else .AVMediaTypeVideo,
          none) := by
  induction pre with
  | nil => simp [rangeScan]
  | cons e rest ih =>
    obtain ⟨k', v⟩ := e
    have hv : v ≠ Iface.int t := h (k', v) (List.mem_cons_self _ _)
    have hrest : ∀ e ∈ rest, e.2 ≠ Iface.int t := fun e he => h e (List.mem_cons_of_mem _ he)
    simp [rangeScan, hv, ih hrest]

theorem exists_first_match (t : Int) (l : List (AVCodecID × Iface))
    (h : ∃ e ∈ l, e.2 = Iface.int t) :
    ∃ pre k post, l = pre ++ (k, Iface.int t) :: post ∧ ∀ e ∈ pre, e.2 ≠ Iface.int t := by
  induction l with
  | nil => simp at h
  | cons e rest ih =>
    obtain ⟨k, v⟩ := e
    by_cases hv : v = Iface.int t
    · subst hv
      exact ⟨[], k, rest, rfl, by simp⟩
    · have hrest : ∃ e ∈ rest, e.2 = Iface.int t := by
        obtain ⟨e, he, hev⟩ := h
        rcases List.mem_cons.mp he with heq | hmem
        · subst heq; exact absurd hev hv
        · exact ⟨e, hmem, hev⟩
      obtain ⟨pre, k', post, hl, hpre⟩ := ih hrest
      refine ⟨(k, v) :: pre, k', post, by simp [hl], ?_⟩
      intro e he
      rcases List.mem_cons.mp he with heq | hmem
      · subst heq; exact hv
      · exact hpre e hmem

/-- What the range scan returns: the failure triple when no entry holds the
stream type, and otherwise the key of the first entry that holds it, with the
media type its ordinal gives. -/
theorem rangeScan_spec (u : Utils) (t : Int) (l : List (AVCodecID × Iface)) :
    ((∀ e ∈ l, e.2 ≠ Iface.int t) ∧
      rangeScan u t l = (u.AVCodecIdNONE, .AVMediaTypeUnknown, some (.notImplemented t))) ∨
    (∃ pre k post, l = pre ++ (k, Iface.int t) :: post ∧ (∀ e ∈ pre, e.2 ≠ Iface.int t) ∧
      rangeScan u t l
        = (k, if k ≥ u.AVCodecIdFIRSTAUDIO then .AVMediaTypeAudio else .AVMediaTypeVideo,
            none)) := by
  by_cases h : ∃ e ∈ l, e.2 = Iface.int t
  · obtain ⟨pre, k, post, hl, hpre⟩ := exists_first_match t l h
    exact Or.inr ⟨pre, k, post, hl, hpre, by rw [hl]; exact rangeScan_first_match u t pre post k hpre⟩
  · have h' : ∀ e ∈ l, e.2 ≠ Iface.int t := fun e he hev => h ⟨e, he, hev⟩
    exact Or.inl ⟨h', rangeScan_no_match u t l h'⟩

/-! ## Lemmas on the built-in tables -/

theorem injective_of_nodup_values (codecs : Codecs) (h : (codecs.map Prod.snd).Nodup) :
    codecs.Injective := by
  intro k₁ k₂ v h₁ h₂
  have := List.inj_on_of_nodup_map h h₁ h₂ rfl
  exact congrArg Prod.fst this

theorem supportedCodecs_injective (u : Utils) : (SupportedCodecs u).Injective := by
  apply injective_of_nodup_values
  show List.Nodup [Iface.int 0x03, Iface.int 0x0F, Iface.int 0x90, Iface.int 0x91,
    Iface.int 0x92, Iface.int 0x96, Iface.int 0x9C, Iface.int 0x1B, Iface.int 0x24,
    Iface.int 0x10]
  decide

theorem tsSupportedCodecs_injective (u : Utils) : (TSSupportedCodecs u).Injective := by
  apply injective_of_nodup_values
  show List.Nodup [Iface.int 0x0F, Iface.int 0x03, Iface.int 0x1B, Iface.int 0x24,
    Iface.int 0x10]
  decide

theorem supportedCodecs_allInts (u : Utils) : (SupportedCodecs u).AllInts := by
  intro e he
  simp only [SupportedCodecs, List.mem_cons, List.mem_singleton, List.not_mem_nil,
    or_false] at he
  rcases he with h | h | h | h | h | h | h | h | h | h <;> subst h <;> exact ⟨_, rfl⟩

theorem tsSupportedCodecs_allInts (u : Utils) : (TSSupportedCodecs u).AllInts := by
  intro e he
  simp only [TSSupportedCodecs, List.mem_cons, List.mem_singleton, List.not_mem_nil,
    or_false] at he
  rcases he with h | h | h | h | h <;> subst h <;> exact ⟨_, rfl⟩

theorem tsSupportedCodecs_sublist (u : Utils) :
    (TSSupportedCodecs u).Perm
      ((SupportedCodecs u).filter (fun e => decide (e.2 ∈ [Iface.int 0x03, Iface.int 0x0F,
        Iface.int 0x1B, Iface.int 0x24, Iface.int 0x10]))) := by
  have : (SupportedCodecs u).filter (fun e => decide (e.2 ∈ [Iface.int 0x03, Iface.int 0x0F,
        Iface.int 0x1B, Iface.int 0x24, Iface.int 0x10]))
      = [(u.AVCodecIdMP3, .int 0x03), (u.AVCodecIdAAC, .int 0x0F),
          (u.AVCodecIdH264, .int 0x1B), (u.AVCodecIdHEVC, .int 0x24),
          (u.AVCodecIdMPEG4, .int 0x10)] := by
    simp [SupportedCodecs, List.filter, StreamTypeAudioMPEG1, StreamTypeAudioAAC,
      StreamTypeAudioG711A, StreamTypeAudioG711U, StreamTypeAudioG722, StreamTypeAudioG726,
      StreamTypeAudioPCM, StreamTypeVideoH264, StreamTypeVideoHEVC, StreamTypeVideoMpeg4]
  rw [this]
  exact List.Perm.swap _ _ _

theorem tsSupportedCodecs_subset (u : Utils) (e : AVCodecID × Iface)
    (he : e ∈ TSSupportedCodecs u) : e ∈ SupportedCodecs u := by
  have := (tsSupportedCodecs_sublist u).subset he
  exact List.mem_of_mem_filter this

theorem tsSupportedCodecs_keysDistinct (u : Utils) (hd : u.Distinct) :
    MapKeysDistinct (TSSupportedCodecs u) := by
  have h₁ : (Codecs.keys ((SupportedCodecs u).filter (fun e => decide (e.2 ∈ [Iface.int 0x03,
      Iface.int 0x0F, Iface.int 0x1B, Iface.int 0x24, Iface.int 0x10])))).Nodup :=
    List.Nodup.sublist (List.Sublist.map _ (List.filter_sublist _)) hd
  exact ((tsSupportedCodecs_sublist u).map Prod.fst).nodup_iff.mpr h₁

/-- The round trip through one table: in a map with injective values, the
forward lookup of a key that holds the integer `t` returns `t`, and the reverse
scan of `t` returns that key under every range order. -/
theorem round_trip_in_table (u : Utils) (ρ : RangeOrder) (codecs : Codecs)
    (hd : MapKeysDistinct codecs) (hinj : codecs.Injective) (c : AVCodecID) (t : Int)
    (hc : (c, Iface.int t) ∈ codecs) :
    AVCodecID2StreamTypeFromCodecs c codecs = .returns (t, none) ∧
    StreamType2AVCodecIDFromCodecs u ρ t codecs
      = (c, if c ≥ u.AVCodecIdFIRSTAUDIO then .AVMediaTypeAudio else .AVMediaTypeVideo,
          none) := by
  constructor
  · simp [AVCodecID2StreamTypeFromCodecs, lookup_eq_some_of_mem codecs hd c _ hc]
  · unfold StreamType2AVCodecIDFromCodecs
    rcases rangeScan_spec u t (ρ.enum codecs) with ⟨hno, _⟩ | ⟨pre, k, post, hl, _, hres⟩
    · exact absurd rfl (hno (c, Iface.int t) ((ρ.perm codecs).mem_iff.mpr hc))
    · have hk : (k, Iface.int t) ∈ codecs := by
        apply (ρ.perm codecs).mem_iff.mp
        rw [hl]; simp
      have : k = c := hinj k c _ hk hc
      subst this
      exact hres

/-- The round trip for every key of a table whose values are injective integers,
with the media type the ordering contract of the enumeration gives. -/
theorem round_trip_all_keys (u : Utils) (hp : u.Partitioned) (ρ : RangeOrder)
    (codecs : Codecs) (hd : MapKeysDistinct codecs) (hinj : codecs.Injective)
    (hints : codecs.AllInts) (c : AVCodecID) (hc : c ∈ codecs.keys) :
    ∃ t m, AVCodecID2StreamTypeFromCodecs c codecs = .returns (t, none) ∧
      StreamType2AVCodecIDFromCodecs u ρ t codecs = (c, m, none) ∧
      (c ∈ u.audioIds → m = .AVMediaTypeAudio) ∧
      (c ∈ u.videoIds → m = .AVMediaTypeVideo) := by
  obtain ⟨⟨c', v⟩, hmem, hfst⟩ := List.mem_map.mp hc
  simp only at hfst
  subst hfst
  obtain ⟨t, ht⟩ := hints _ hmem
  simp only at ht
  subst ht
  obtain ⟨h₁, h₂⟩ := round_trip_in_table u ρ codecs hd hinj c' t hmem
  refine ⟨t, _, h₁, h₂, ?_, ?_⟩
  · intro ha
    have : u.AVCodecIdFIRSTAUDIO ≤ c' := hp.1 c' ha
    simp [this]
  · intro hv
    have : c' < u.AVCodecIdFIRSTAUDIO := hp.2 c' hv
    simp [not_le.mpr this]

/-- The value `streamTypes[s]` once `init` has run, key by key. -/
theorem streamTypes_index_after_init (u : Utils) (p : StreamIDs) (s : Int) :
    intMapIndex (initialized u p).streamTypes s =
      if s = 0x01 then p.StreamIDVideo else if s = 0x02 then p.StreamIDVideo
      else if s = 0x03 then p.StreamIDAudio else if s = 0x04 then p.StreamIDAudio
      else if s = 0x05 then p.StreamIDPrivateStream1
      else if s = 0x06 then p.StreamIDPrivateStream1
      else if s = 0x0F then p.StreamIDAudio else if s = 0x10 then p.StreamIDVideo
      else if s = 0x1B then p.StreamIDVideo else if s = 0x24 then p.StreamIDVideo
      else if s = 0x42 then p.StreamIDVideo else if s = 0x81 then p.StreamIDAudio
      else 0 := by
  show intMapIndex [(0x01, p.StreamIDVideo), (0x02, p.StreamIDVideo), (0x03, p.StreamIDAudio),
    (0x04, p.StreamIDAudio), (0x05, p.StreamIDPrivateStream1),
    (0x06, p.StreamIDPrivateStream1), (0x0F, p.StreamIDAudio), (0x10, p.StreamIDVideo),
    (0x1B, p.StreamIDVideo), (0x24, p.StreamIDVideo), (0x42, p.StreamIDVideo),
    (0x81, p.StreamIDAudio)] s = _
  simp only [intMapIndex_cons, intMapIndex_nil]

/-- The exact sets of stream types `isAudio` and `isVideo` accept once `init`
has run. -/
theorem classification_after_init (u : Utils) (p : StreamIDs) (hsep : p.Separated)
    (s : Int) :
    ((isAudio p s (initialized u p)).1 = true ↔ s ∈ [(0x03 : Int), 0x04, 0x0F, 0x81]) ∧
    ((isVideo p s (initialized u p)).1 = true
      ↔ s ∈ [(0x01 : Int), 0x02, 0x10, 0x1B, 0x24, 0x42]) := by
  obtain ⟨hAV, hAH, hPA, hPV, hPH, hA0, hV0, hH0⟩ := hsep
  have hVA := Ne.symm hAV
  have hHA := Ne.symm hAH
  have h0A := Ne.symm hA0
  have h0V := Ne.symm hV0
  have h0H := Ne.symm hH0
  have hidx := streamTypes_index_after_init u p s
  by_cases hs : s ∈ [(0x01 : Int), 0x02, 0x03, 0x04, 0x05, 0x06, 0x0F, 0x10, 0x1B, 0x24,
      0x42, 0x81]
  · simp only [List.mem_cons, List.mem_singleton, List.not_mem_nil, or_false] at hs
    rcases hs with h | h | h | h | h | h | h | h | h | h | h | h <;> subst h <;>
      norm_num at hidx <;> simp only [isAudio, isVideo, hidx] <;> simp [*]
  · simp only [List.mem_cons, List.mem_singleton, List.not_mem_nil, or_false, not_or] at hs
    obtain ⟨h1, h2, h3, h4, h5, h6, h7, h8, h9, h10, h11, h12⟩ := hs
    rw [if_neg h1, if_neg h2, if_neg h3, if_neg h4, if_neg h5, if_neg h6, if_neg h7, if_neg h8,
      if_neg h9, if_neg h10, if_neg h11, if_neg h12] at hidx
    simp only [isAudio, isVideo, hidx]
    simp [*]

/-- A PS key whose stream type is not a value of the TS table is not a TS key. -/
theorem not_ts_key_of_ps_only (u : Utils) (hd : u.Distinct) (c : AVCodecID) (t : Int)
    (hps : (c, Iface.int t) ∈ SupportedCodecs u)
    (hval : Iface.int t ∉ (TSSupportedCodecs u).map Prod.snd) :
    c ∉ (TSSupportedCodecs u).keys := by
  intro hc
  obtain ⟨⟨c', v⟩, hmem, hfst⟩ := List.mem_map.mp hc
  simp only at hfst
  subst hfst
  have h₁ := lookup_eq_some_of_mem _ hd c' v (tsSupportedCodecs_subset u _ hmem)
  have h₂ := lookup_eq_some_of_mem _ hd c' _ hps
  rw [h₁] at h₂
  cases h₂
  exact hval (List.mem_map.mpr ⟨_, hmem, rfl⟩)

/-! ## Lemmas on range orders -/

/-- A scan that finds the stream type in the first part of the entries never
reads the second part. -/
theorem rangeScan_append_of_match (u : Utils) (t : Int) (l₁ l₂ : List (AVCodecID × Iface))
    (h : ∃ e ∈ l₁, e.2 = Iface.int t) :
    rangeScan u t (l₁ ++ l₂) = rangeScan u t l₁ := by
  induction l₁ with
  | nil => simp at h
  | cons e rest ih =>
    obtain ⟨k, v⟩ := e
    by_cases hv : v = Iface.int t
    · subst hv; simp [rangeScan]
    · have hrest : ∃ e ∈ rest, e.2 = Iface.int t := by
        obtain ⟨e, he, hev⟩ := h
        rcases List.mem_cons.mp he with heq | hmem
        · subst heq; exact absurd hev hv
        · exact ⟨e, hmem, hev⟩
      simp [rangeScan, hv, ih hrest]

/-- Under the range order that visits the key `k` first, the scan for a stream
type stored under `k` returns `k`. -/
theorem rangeScan_keyFirst (u : Utils) (codecs : Codecs) (k : AVCodecID) (t : Int)
    (hk : (k, Iface.int t) ∈ codecs) :
    StreamType2AVCodecIDFromCodecs u (RangeOrder.keyFirst k) t codecs
      = (k, if k ≥ u.AVCodecIdFIRSTAUDIO then .AVMediaTypeAudio else .AVMediaTypeVideo,
          none) := by
  have hmem : (k, Iface.int t) ∈ codecs.filter (fun e => e.1 == k) := by
    simp [List.mem_filter, hk]
  show rangeScan u t (codecs.filter (fun e => e.1 == k)
    ++ codecs.filter (fun e => !(e.1 == k))) = _
  rw [rangeScan_append_of_match u t _ _ ⟨_, hmem, rfl⟩]
  rcases rangeScan_spec u t (codecs.filter (fun e => e.1 == k)) with
    ⟨hno, _⟩ | ⟨pre, k', post, hl, _, hres⟩
  · exact absurd rfl (hno _ hmem)
  · have hk' : (k', Iface.int t) ∈ codecs.filter (fun e => e.1 == k) := by
      rw [hl]; simp
    have : k' = k := by simpa using (List.mem_filter.mp hk').2
    subst this
    exact hres

/-- In a table with injective values the reverse scan of a stream type stored
under `c` returns `c`, whatever the range order. -/
theorem reverse_scan_of_mem (u : Utils) (ρ : RangeOrder) (codecs : Codecs)
    (hinj : codecs.Injective) (c : AVCodecID) (t : Int)
    (hc : (c, Iface.int t) ∈ codecs) :
    StreamType2AVCodecIDFromCodecs u ρ t codecs
      = (c, if c ≥ u.AVCodecIdFIRSTAUDIO then .AVMediaTypeAudio else .AVMediaTypeVideo,
          none) := by
  unfold StreamType2AVCodecIDFromCodecs
  rcases rangeScan_spec u t (ρ.enum codecs) with ⟨hno, _⟩ | ⟨pre, k, post, hl, _, hres⟩
  · exact absurd rfl (hno (c, Iface.int t) ((ρ.perm codecs).mem_iff.mpr hc))
  · have hk : (k, Iface.int t) ∈ codecs := by
      apply (ρ.perm codecs).mem_iff.mp
      rw [hl]; simp
    have : k = c := hinj k c _ hk hc
    subst this
    exact hres

/-- In a table with injective values the reverse scan returns the same triple
under any two range orders. -/
theorem reverse_scan_order_independent (u : Utils) (codecs : Codecs)
    (hinj : codecs.Injective) (ρ₁ ρ₂ : RangeOrder) (t : Int) :
    StreamType2AVCodecIDFromCodecs u ρ₁ t codecs
      = StreamType2AVCodecIDFromCodecs u ρ₂ t codecs := by
  by_cases h : ∃ e ∈ codecs, e.2 = Iface.int t
  · obtain ⟨⟨c, v⟩, he, hv⟩ := h
    simp only at hv
    subst hv
    rw [reverse_scan_of_mem u ρ₁ codecs hinj c t he, reverse_scan_of_mem u ρ₂ codecs hinj c t he]
  · have hno : ∀ (ρ : RangeOrder), ∀ e ∈ ρ.enum codecs, e.2 ≠ Iface.int t :=
      fun ρ e he hev => h ⟨e, (ρ.perm codecs).mem_iff.mp he, hev⟩
    unfold StreamType2AVCodecIDFromCodecs
    rw [rangeScan_no_match u t _ (hno ρ₁), rangeScan_no_match u t _ (hno ρ₂)]

/-! ## Lemmas on stored values -/

/-- Every integer stored in the PS table is a byte. -/
theorem supportedCodecs_value_range (u : Utils) (c : AVCodecID) (t : Int)
    (h : (c, Iface.int t) ∈ SupportedCodecs u) : 0 ≤ t ∧ t ≤ 255 := by
  simp only [SupportedCodecs, List.mem_cons, List.mem_singleton, List.not_mem_nil, or_false,
    Prod.mk.injEq, Iface.int.injEq, StreamTypeAudioMPEG1, StreamTypeAudioAAC,
    StreamTypeAudioG711A, StreamTypeAudioG711U, StreamTypeAudioG722, StreamTypeAudioG726,
    StreamTypeAudioPCM, StreamTypeVideoH264, StreamTypeVideoHEVC, StreamTypeVideoMpeg4] at h
  rcases h with h | h | h | h | h | h | h | h | h | h <;> omega

/-- A forward lookup that succeeds found its result stored under the key. -/
theorem mem_of_forward_success (codecs : Codecs) (id : AVCodecID) (t : Int)
    (h : AVCodecID2StreamTypeFromCodecs id codecs = .returns (t, none)) :
    (id, Iface.int t) ∈ codecs :=
  mem_of_lookup_eq_some codecs id _ ((forward_success_iff codecs id t).mp h)

/-- On a table whose values are all ints the forward lookup returns. -/
theorem forward_returns_of_allInts (codecs : Codecs) (hints : codecs.AllInts)
    (id : AVCodecID) : ∃ n e, AVCodecID2StreamTypeFromCodecs id codecs = .returns (n, e) := by
  unfold AVCodecID2StreamTypeFromCodecs
  cases hl : codecs.lookup id with
  | none => exact ⟨-1, _, rfl⟩
  | some v =>
    obtain ⟨n, hn⟩ := hints _ (mem_of_lookup_eq_some codecs id v hl)
    simp only at hn
    subst hn
    exact ⟨n, none, rfl⟩

/-- The value `streamTypes[s]` is `0` or the class of some entry of the map. -/
theorem intMapIndex_zero_or_mem (m : List (Int × Int)) (s : Int) :
    intMapIndex m s = 0 ∨ ∃ e ∈ m, e.2 = intMapIndex m s := by
  induction m with
  | nil => exact Or.inl rfl
  | cons e rest ih =>
    obtain ⟨k, v⟩ := e
    rw [intMapIndex_cons]
    by_cases hk : s = k
    · rw [if_pos hk]
      exact Or.inr ⟨(k, v), List.mem_cons_self _ _, rfl⟩
    · rw [if_neg hk]
      rcases ih with h0 | ⟨e, he, hev⟩
      · exact Or.inl h0
      · exact Or.inr ⟨e, List.mem_cons_of_mem _ he, hev⟩

/-- The classes `init` stores are the video, audio and private classes only. -/
theorem streamTypes_classes_after_init (u : Utils) (p : StreamIDs) (e : Int × Int)
    (he : e ∈ (initialized u p).streamTypes) :
    e.2 = p.StreamIDVideo ∨ e.2 = p.StreamIDAudio ∨ e.2 = p.StreamIDPrivateStream1 := by
  simp only [initialized, init, List.mem_cons, List.mem_singleton, List.not_mem_nil,
    or_false] at he
  rcases he with h | h | h | h | h | h | h | h | h | h | h | h <;> subst h <;> simp

/-! ## Theorems -/

/-- C1. Round trip, for each format independently: for constants that are
pairwise distinct and respect the audio boundary, every key `c` of the PS table
is sent by `AVCodecID2StreamType` to some `t` with a nil error, and
`StreamType2AVCodecID t` returns `(c, m)` with a nil error under every range
order, where `m` is Audio for MP3, AAC, PCMALAW, PCMMULAW, ADPCMG722, ADPCMG726,
PCMS16LE and Video for H264, HEVC, MPEG4; likewise for the TS table with the TS
functions; in particular H264 maps to `0x1B` and back to `(H264, Video)`. -/
theorem round_trip_supported_codecs (u : Utils) (p : StreamIDs) (hd : u.Distinct)
    (hp : u.Partitioned) (ρ : RangeOrder) :
    (∀ c ∈ (SupportedCodecs u).keys, ∃ t m,
      (AVCodecID2StreamType c (initialized u p)).1 = .returns (t, none) ∧
      (StreamType2AVCodecID u ρ t (initialized u p)).1 = (c, m, none) ∧
      (c ∈ u.audioIds → m = .AVMediaTypeAudio) ∧
      (c ∈ u.videoIds → m = .AVMediaTypeVideo)) ∧
    (∀ c ∈ (TSSupportedCodecs u).keys, ∃ t m,
      (TSAVCodecID2StreamType c (initialized u p)).1 = .returns (t, none) ∧
      (TSStreamType2AVCodecID u ρ t (initialized u p)).1 = (c, m, none) ∧
      (c ∈ u.audioIds → m = .AVMediaTypeAudio) ∧
      (c ∈ u.videoIds → m = .AVMediaTypeVideo)) ∧
    (AVCodecID2StreamType u.AVCodecIdH264 (initialized u p)).1 = .returns (0x1B, none) ∧
    (StreamType2AVCodecID u ρ 0x1B (initialized u p)).1
      = (u.AVCodecIdH264, .AVMediaTypeVideo, none) := by
  refine ⟨?_, ?_, ?_⟩
  · intro c hc
    exact round_trip_all_keys u hp ρ (SupportedCodecs u) hd (supportedCodecs_injective u)
      (supportedCodecs_allInts u) c hc
  · intro c hc
    exact round_trip_all_keys u hp ρ (TSSupportedCodecs u)
      (tsSupportedCodecs_keysDistinct u hd) (tsSupportedCodecs_injective u)
      (tsSupportedCodecs_allInts u) c hc
  · have hmem : (u.AVCodecIdH264, Iface.int 0x1B) ∈ SupportedCodecs u := by
      simp [SupportedCodecs, StreamTypeVideoH264]
    obtain ⟨h₁, h₂⟩ := round_trip_in_table u ρ (SupportedCodecs u) hd
      (supportedCodecs_injective u) u.AVCodecIdH264 0x1B hmem
    have hv : u.AVCodecIdH264 < u.AVCodecIdFIRSTAUDIO := hp.2 _ (by simp [Utils.videoIds])
    rw [if_neg (not_le.mpr hv)] at h₂
    exact ⟨h₁, h₂⟩

/-- C1, at the sample constants and the reversed range order. -/
theorem round_trip_supported_codecs_witness :
    sampleUtils.Distinct ∧ sampleUtils.Partitioned ∧
    (AVCodecID2StreamType sampleUtils.AVCodecIdH264
        (initialized sampleUtils sampleStreamIDs)).1 = .returns (0x1B, none) ∧
    (StreamType2AVCodecID sampleUtils RangeOrder.reversed 0x1B
        (initialized sampleUtils sampleStreamIDs)).1
      = (sampleUtils.AVCodecIdH264, .AVMediaTypeVideo, none) :=
  ⟨by decide, by decide,
    (round_trip_supported_codecs sampleUtils sampleStreamIDs (by decide) (by decide)
      RangeOrder.reversed).2.2⟩

/-- C2. For every table whose values are ints and every codec id,
`AVCodecID2StreamTypeFromCodecs` returns a non-nil error if and only if the id
is not a key of the table; on a key it returns exactly the integer stored under
that key together with a nil error; on a missing key the returned integer is
`-1`. It never panics on such a table. -/
theorem forward_lookup_error_iff_absent (codecs : Codecs) (hd : MapKeysDistinct codecs)
    (hints : codecs.AllInts) (id : AVCodecID) :
    ((∃ n e, AVCodecID2StreamTypeFromCodecs id codecs = .returns (n, some e))
      ↔ id ∉ codecs.keys) ∧
    (∀ n, (id, Iface.int n) ∈ codecs →
      AVCodecID2StreamTypeFromCodecs id codecs = .returns (n, none)) ∧
    (id ∈ codecs.keys → ∃ n, codecs.lookup id = some (Iface.int n) ∧
      AVCodecID2StreamTypeFromCodecs id codecs = .returns (n, none)) ∧
    (id ∉ codecs.keys →
      AVCodecID2StreamTypeFromCodecs id codecs
        = .returns (-1, some (.unsupportedCodec id))) ∧
    AVCodecID2StreamTypeFromCodecs id codecs ≠ .panics := by
  have hkey : id ∈ codecs.keys → ∃ n, codecs.lookup id = some (Iface.int n) ∧
      AVCodecID2StreamTypeFromCodecs id codecs = .returns (n, none) := by
    intro hk
    obtain ⟨⟨k, v⟩, hmem, hfst⟩ := List.mem_map.mp hk
    simp only at hfst
    subst hfst
    obtain ⟨n, hn⟩ := hints _ hmem
    simp only at hn
    subst hn
    have hl := lookup_eq_some_of_mem codecs hd k _ hmem
    exact ⟨n, hl, by simp [AVCodecID2StreamTypeFromCodecs, hl]⟩
  have habs : id ∉ codecs.keys →
      AVCodecID2StreamTypeFromCodecs id codecs
        = .returns (-1, some (.unsupportedCodec id)) := by
    intro hk
    simp [AVCodecID2StreamTypeFromCodecs, (lookup_eq_none_iff codecs id).mpr hk]
  refine ⟨⟨?_, ?_⟩, ?_, hkey, habs, ?_⟩
  · rintro ⟨n, e, hne⟩ hk
    obtain ⟨m, _, hm⟩ := hkey hk
    rw [hm] at hne
    cases hne
  · intro hk
    exact ⟨-1, _, habs hk⟩
  · intro n hmem
    simp [AVCodecID2StreamTypeFromCodecs, lookup_eq_some_of_mem codecs hd id _ hmem]
  · by_cases hk : id ∈ codecs.keys
    · obtain ⟨m, _, hm⟩ := hkey hk
      rw [hm]; exact fun h => by cases h
    · rw [habs hk]; exact fun h => by cases h

/-- C2, on the PS table at the sample constants, for the codec id 27 (H264). -/
theorem forward_lookup_error_iff_absent_witness :
    MapKeysDistinct (SupportedCodecs sampleUtils) ∧
    AVCodecID2StreamTypeFromCodecs 27 (SupportedCodecs sampleUtils) = .returns (0x1B, none) :=
  ⟨by decide,
    (forward_lookup_error_iff_absent (SupportedCodecs sampleUtils) (by decide)
      (supportedCodecs_allInts sampleUtils) 27).2.1 0x1B (by decide)⟩

/-- C3. For every table, every integer stream type and every range order,
`StreamType2AVCodecIDFromCodecs` returns a non-nil error if and only if no entry
of the table has a value equal to the stream type, and on error it returns
`(AVCodecIdNONE, AVMediaTypeUnknown)`. In particular `StreamType2AVCodecID` and
`TSStreamType2AVCodecID` fail for every `t` that is not a value of their table,
for instance `0x99`. -/
theorem reverse_lookup_error_iff_no_entry (u : Utils) (p : StreamIDs) (ρ : RangeOrder) :
    (∀ (codecs : Codecs) (streamType : Int),
      ((StreamType2AVCodecIDFromCodecs u ρ streamType codecs).2.2 ≠ none
        ↔ ∀ e ∈ codecs, e.2 ≠ Iface.int streamType) ∧
      ((StreamType2AVCodecIDFromCodecs u ρ streamType codecs).2.2 ≠ none →
        StreamType2AVCodecIDFromCodecs u ρ streamType codecs
          = (u.AVCodecIdNONE, .AVMediaTypeUnknown, some (.notImplemented streamType)))) ∧
    (∀ t : Int, Iface.int t ∉ (SupportedCodecs u).map Prod.snd →
      (StreamType2AVCodecID u ρ t (initialized u p)).1
        = (u.AVCodecIdNONE, .AVMediaTypeUnknown, some (.notImplemented t))) ∧
    (∀ t : Int, Iface.int t ∉ (TSSupportedCodecs u).map Prod.snd →
      (TSStreamType2AVCodecID u ρ t (initialized u p)).1
        = (u.AVCodecIdNONE, .AVMediaTypeUnknown, some (.notImplemented t))) ∧
    (StreamType2AVCodecID u ρ 0x99 (initialized u p)).1
      = (u.AVCodecIdNONE, .AVMediaTypeUnknown, some (.notImplemented 0x99)) ∧
    (TSStreamType2AVCodecID u ρ 0x99 (initialized u p)).1
      = (u.AVCodecIdNONE, .AVMediaTypeUnknown, some (.notImplemented 0x99)) := by
  have hgen : ∀ (codecs : Codecs) (t : Int), (∀ e ∈ codecs, e.2 ≠ Iface.int t) →
      StreamType2AVCodecIDFromCodecs u ρ t codecs
        = (u.AVCodecIdNONE, .AVMediaTypeUnknown, some (.notImplemented t)) := by
    intro codecs t h
    exact rangeScan_no_match u t _ (fun e he => h e ((ρ.perm codecs).mem_iff.mp he))
  have hval : ∀ (codecs : Codecs) (t : Int), Iface.int t ∉ codecs.map Prod.snd →
      ∀ e ∈ codecs, e.2 ≠ Iface.int t := by
    intro codecs t h e he hev
    exact h (List.mem_map.mpr ⟨e, he, hev⟩)
  have hiff : ∀ (codecs : Codecs) (t : Int),
      (StreamType2AVCodecIDFromCodecs u ρ t codecs).2.2 ≠ none
        ↔ ∀ e ∈ codecs, e.2 ≠ Iface.int t := by
    intro codecs t
    constructor
    · intro herr e he hev
      rcases rangeScan_spec u t (ρ.enum codecs) with ⟨hno, _⟩ | ⟨pre, k, post, _, _, hres⟩
      · exact hno e ((ρ.perm codecs).mem_iff.mpr he) hev
      · apply herr
        unfold StreamType2AVCodecIDFromCodecs
        rw [hres]
    · intro h
      rw [hgen codecs t h]
      simp
  refine ⟨fun codecs t => ⟨hiff codecs t, fun herr => hgen codecs t ((hiff codecs t).mp herr)⟩,
    fun t ht => hgen _ t (hval _ t ht), fun t ht => hgen _ t (hval _ t ht), ?_, ?_⟩
  · apply hgen (SupportedCodecs u) 0x99
    apply hval
    show Iface.int 0x99 ∉ [Iface.int 0x03, Iface.int 0x0F, Iface.int 0x90, Iface.int 0x91,
      Iface.int 0x92, Iface.int 0x96, Iface.int 0x9C, Iface.int 0x1B, Iface.int 0x24,
      Iface.int 0x10]
    decide
  · apply hgen (TSSupportedCodecs u) 0x99
    apply hval
    show Iface.int 0x99 ∉ [Iface.int 0x0F, Iface.int 0x03, Iface.int 0x1B, Iface.int 0x24,
      Iface.int 0x10]
    decide

/-- C4. Media-type inference boundary: for every table, stream type and range
order, whenever `StreamType2AVCodecIDFromCodecs` succeeds returning `(k, m)`,
`m` is Audio if `k >= AVCodecIdFIRSTAUDIO` and Video if
`k < AVCodecIdFIRSTAUDIO`, and `m` is never Unknown. -/
theorem media_type_by_boundary (u : Utils) (ρ : RangeOrder) (codecs : Codecs)
    (streamType : Int) (k : AVCodecID) (m : AVMediaType)
    (hok : StreamType2AVCodecIDFromCodecs u ρ streamType codecs = (k, m, none)) :
    (k ≥ u.AVCodecIdFIRSTAUDIO → m = .AVMediaTypeAudio) ∧
    (k < u.AVCodecIdFIRSTAUDIO → m = .AVMediaTypeVideo) ∧
    m ≠ .AVMediaTypeUnknown := by
  unfold StreamType2AVCodecIDFromCodecs at hok
  rcases rangeScan_spec u streamType (ρ.enum codecs) with ⟨_, hres⟩ | ⟨pre, k', post, _, _, hres⟩
  · rw [hres] at hok
    simp at hok
  · rw [hres] at hok
    simp only [Prod.mk.injEq, and_true] at hok
    obtain ⟨hk, hm⟩ := hok
    subst hk
    by_cases hge : k' ≥ u.AVCodecIdFIRSTAUDIO
    · rw [if_pos hge] at hm
      subst hm
      exact ⟨fun _ => rfl, fun hlt => absurd hge (not_le.mpr hlt), by decide⟩
    · rw [if_neg hge] at hm
      subst hm
      exact ⟨fun h => absurd h hge, fun _ => rfl, by decide⟩

/-- C4, on the PS table at the sample constants: stream type `0x9C` resolves to
the codec `0x10000`, which sits exactly on the audio boundary. -/
theorem media_type_by_boundary_witness :
    StreamType2AVCodecIDFromCodecs sampleUtils RangeOrder.source 0x9C
        (SupportedCodecs sampleUtils) = (0x10000, .AVMediaTypeAudio, none) ∧
    ((0x10000 : Int) ≥ sampleUtils.AVCodecIdFIRSTAUDIO →
      AVMediaType.AVMediaTypeAudio = .AVMediaTypeAudio) ∧
    ((0x10000 : Int) < sampleUtils.AVCodecIdFIRSTAUDIO →
      AVMediaType.AVMediaTypeAudio = .AVMediaTypeVideo) ∧
    AVMediaType.AVMediaTypeAudio ≠ .AVMediaTypeUnknown :=
  ⟨by decide,
    media_type_by_boundary sampleUtils RangeOrder.source (SupportedCodecs sampleUtils) 0x9C
      0x10000 .AVMediaTypeAudio (by decide)⟩

/-- C5. When the audio class differs from both video classes, `isAudio` and
`isVideo` are never both true, in any package state and for any stream type;
and when moreover none of the three classes is `0`, both are false for every
stream type that is not a key of `streamTypes`, in particular for every stream
type outside the twelve keys `init` stores. -/
theorem audio_video_exclusive (u : Utils) (p : StreamIDs) (g : Globals) (s : Int)
    (hAV : p.StreamIDAudio ≠ p.StreamIDVideo) (hAH : p.StreamIDAudio ≠ p.StreamIDH624)
    (hA0 : p.StreamIDAudio ≠ 0) (hV0 : p.StreamIDVideo ≠ 0) (hH0 : p.StreamIDH624 ≠ 0) :
    ¬ ((isAudio p s g).1 = true ∧ (isVideo p s g).1 = true) ∧
    (s ∉ g.streamTypes.map Prod.fst →
      (isAudio p s g).1 = false ∧ (isVideo p s g).1 = false) ∧
    (s ∉ [(0x01 : Int), 0x02, 0x03, 0x04, 0x05, 0x06, 0x0F, 0x10, 0x1B, 0x24, 0x42, 0x81] →
      (isAudio p s (initialized u p)).1 = false ∧
      (isVideo p s (initialized u p)).1 = false) := by
  have habsent : ∀ g' : Globals, s ∉ g'.streamTypes.map Prod.fst →
      (isAudio p s g').1 = false ∧ (isVideo p s g').1 = false := by
    intro g' hs
    simp only [isAudio, isVideo, intMapIndex_absent _ s hs]
    simp [Ne.symm hA0, Ne.symm hV0, Ne.symm hH0]
  refine ⟨?_, habsent g, fun hs => habsent (initialized u p) hs⟩
  rintro ⟨ha, hv⟩
  simp only [isAudio, isVideo, Bool.or_eq_true, beq_iff_eq] at ha hv
  rcases hv with hv | hv
  · exact hAV (ha.symm.trans hv)
  · exact hAH (ha.symm.trans hv)

/-- C5, at the sample stream ids, for the stream type `0x90` after `init`. -/
theorem audio_video_exclusive_witness :
    (0x90 : Int) ∉ (initialized sampleUtils sampleStreamIDs).streamTypes.map Prod.fst ∧
    (isAudio sampleStreamIDs 0x90 (initialized sampleUtils sampleStreamIDs)).1 = false ∧
    (isVideo sampleStreamIDs 0x90 (initialized sampleUtils sampleStreamIDs)).1 = false :=
  ⟨by decide,
    (audio_video_exclusive sampleUtils sampleStreamIDs (initialized sampleUtils sampleStreamIDs)
      0x90 (by decide) (by decide) (by decide) (by decide) (by decide)).2.1 (by decide)⟩

/-- C6. Exact classification sets: when the stream-id classes are told apart,
after `init`, for every integer `s`, `isAudio` is true exactly on `0x03`, `0x04`,
`0x0F`, `0x81` and `isVideo` is true exactly on `0x01`, `0x02`, `0x10`, `0x1B`,
`0x24`, `0x42`; the private stream types `0x05` and `0x06` are neither; and
`isVideo(0x1B)` is true while `isAudio(0x1B)` is false. -/
theorem exact_classification_sets (u : Utils) (p : StreamIDs) (hsep : p.Separated) :
    (∀ s : Int,
      ((isAudio p s (initialized u p)).1 = true ↔ s ∈ [(0x03 : Int), 0x04, 0x0F, 0x81]) ∧
      ((isVideo p s (initialized u p)).1 = true
        ↔ s ∈ [(0x01 : Int), 0x02, 0x10, 0x1B, 0x24, 0x42])) ∧
    (isAudio p 0x05 (initialized u p)).1 = false ∧
    (isVideo p 0x05 (initialized u p)).1 = false ∧
    (isAudio p 0x06 (initialized u p)).1 = false ∧
    (isVideo p 0x06 (initialized u p)).1 = false ∧
    (isVideo p 0x1B (initialized u p)).1 = true ∧
    (isAudio p 0x1B (initialized u p)).1 = false := by
  have h := classification_after_init u p hsep
  refine ⟨h, ?_, ?_, ?_, ?_, ?_, ?_⟩
  · exact Bool.eq_false_iff.mpr (fun hc => absurd ((h 0x05).1.mp hc) (by decide))
  · exact Bool.eq_false_iff.mpr (fun hc => absurd ((h 0x05).2.mp hc) (by decide))
  · exact Bool.eq_false_iff.mpr (fun hc => absurd ((h 0x06).1.mp hc) (by decide))
  · exact Bool.eq_false_iff.mpr (fun hc => absurd ((h 0x06).2.mp hc) (by decide))
  · exact (h 0x1B).2.mpr (by decide)
  · exact Bool.eq_false_iff.mpr (fun hc => absurd ((h 0x1B).1.mp hc) (by decide))

/-- C6, at the sample stream ids. -/
theorem exact_classification_sets_witness :
    sampleStreamIDs.Separated ∧
    (isVideo sampleStreamIDs 0x1B (initialized sampleUtils sampleStreamIDs)).1 = true ∧
    (isAudio sampleStreamIDs 0x1B (initialized sampleUtils sampleStreamIDs)).1 = false :=
  ⟨by decide, (exact_classification_sets sampleUtils sampleStreamIDs (by decide)).2.2.2.2.2⟩

/-- C7. The TS table is a sub-table of the PS table: for pairwise distinct
codec constants, every codec on which `TSAVCodecID2StreamType` succeeds also
succeeds under `AVCodecID2StreamType` with the same stream type; and PCMALAW,
PCMMULAW, PCMS16LE succeed under `AVCodecID2StreamType` with `0x90`, `0x91`,
`0x9C` but fail under `TSAVCodecID2StreamType`. -/
theorem ts_subtable_of_ps (u : Utils) (p : StreamIDs) (hd : u.Distinct) :
    (∀ (c : AVCodecID) (t : Int),
      (TSAVCodecID2StreamType c (initialized u p)).1 = .returns (t, none) →
      (AVCodecID2StreamType c (initialized u p)).1 = .returns (t, none)) ∧
    (AVCodecID2StreamType u.AVCodecIdPCMALAW (initialized u p)).1 = .returns (0x90, none) ∧
    (AVCodecID2StreamType u.AVCodecIdPCMMULAW (initialized u p)).1 = .returns (0x91, none) ∧
    (AVCodecID2StreamType u.AVCodecIdPCMS16LE (initialized u p)).1 = .returns (0x9C, none) ∧
    (TSAVCodecID2StreamType u.AVCodecIdPCMALAW (initialized u p)).1
      = .returns (-1, some (.unsupportedCodec u.AVCodecIdPCMALAW)) ∧
    (TSAVCodecID2StreamType u.AVCodecIdPCMMULAW (initialized u p)).1
      = .returns (-1, some (.unsupportedCodec u.AVCodecIdPCMMULAW)) ∧
    (TSAVCodecID2StreamType u.AVCodecIdPCMS16LE (initialized u p)).1
      = .returns (-1, some (.unsupportedCodec u.AVCodecIdPCMS16LE)) := by
  have hA : (u.AVCodecIdPCMALAW, Iface.int 0x90) ∈ SupportedCodecs u := by
    simp [SupportedCodecs, StreamTypeAudioG711A]
  have hU : (u.AVCodecIdPCMMULAW, Iface.int 0x91) ∈ SupportedCodecs u := by
    simp [SupportedCodecs, StreamTypeAudioG711U]
  have hP : (u.AVCodecIdPCMS16LE, Iface.int 0x9C) ∈ SupportedCodecs u := by
    simp [SupportedCodecs, StreamTypeAudioPCM]
  have hps : ∀ (c : AVCodecID) (t : Int), (c, Iface.int t) ∈ SupportedCodecs u →
      (AVCodecID2StreamType c (initialized u p)).1 = .returns (t, none) := by
    intro c t hc
    exact (forward_success_iff (SupportedCodecs u) c t).mpr
      (lookup_eq_some_of_mem _ hd c _ hc)
  have hts : ∀ (c : AVCodecID) (t : Int), (c, Iface.int t) ∈ SupportedCodecs u →
      Iface.int t ∉ [Iface.int 0x0F, Iface.int 0x03, Iface.int 0x1B, Iface.int 0x24,
        Iface.int 0x10] →
      (TSAVCodecID2StreamType c (initialized u p)).1
        = .returns (-1, some (.unsupportedCodec c)) := by
    intro c t hc hv
    have hk : c ∉ (TSSupportedCodecs u).keys := not_ts_key_of_ps_only u hd c t hc hv
    show AVCodecID2StreamTypeFromCodecs c (TSSupportedCodecs u) = _
    simp [AVCodecID2StreamTypeFromCodecs, (lookup_eq_none_iff _ c).mpr hk]
  refine ⟨?_, hps _ _ hA, hps _ _ hU, hps _ _ hP, hts _ _ hA (by decide),
    hts _ _ hU (by decide), hts _ _ hP (by decide)⟩
  intro c t hc
  have h₁ : (TSSupportedCodecs u).lookup c = some (Iface.int t) :=
    (forward_success_iff (TSSupportedCodecs u) c t).mp hc
  exact hps c t (tsSupportedCodecs_subset u _ (mem_of_lookup_eq_some _ c _ h₁))

/-- C7, at the sample constants: PCMALAW is `0x90` in PS and unsupported in TS. -/
theorem ts_subtable_of_ps_witness :
    sampleUtils.Distinct ∧
    (AVCodecID2StreamType sampleUtils.AVCodecIdPCMALAW
      (initialized sampleUtils sampleStreamIDs)).1 = .returns (0x90, none) ∧
    (TSAVCodecID2StreamType sampleUtils.AVCodecIdPCMALAW
      (initialized sampleUtils sampleStreamIDs)).1
      = .returns (-1, some (.unsupportedCodec sampleUtils.AVCodecIdPCMALAW)) :=
  have h := ts_subtable_of_ps sampleUtils sampleStreamIDs (by decide)
  ⟨by decide, h.2.1, h.2.2.2.2.1⟩

/-- C8. The classification table does not cover the stream types of the PS
table: for pairwise distinct codec constants that respect the audio boundary and
stream-id classes other than `0`, PCMALAW is sent by `AVCodecID2StreamType` to
`0x90`, `StreamType2AVCodecID(0x90)` reports `(PCMALAW, Audio)` under every range
order, and yet `0x90` is not a key of `streamTypes` after `init`, so that
`isAudio(0x90)` and `isVideo(0x90)` are both false. -/
theorem classification_misses_g711a (u : Utils) (p : StreamIDs) (ρ : RangeOrder)
    (hd : u.Distinct) (hp : u.Partitioned) (hA0 : p.StreamIDAudio ≠ 0)
    (hV0 : p.StreamIDVideo ≠ 0) (hH0 : p.StreamIDH624 ≠ 0) :
    (AVCodecID2StreamType u.AVCodecIdPCMALAW (initialized u p)).1 = .returns (0x90, none) ∧
    (StreamType2AVCodecID u ρ 0x90 (initialized u p)).1
      = (u.AVCodecIdPCMALAW, .AVMediaTypeAudio, none) ∧
    (0x90 : Int) ∉ (initialized u p).streamTypes.map Prod.fst ∧
    (isAudio p 0x90 (initialized u p)).1 = false ∧
    (isVideo p 0x90 (initialized u p)).1 = false := by
  have hmem : (u.AVCodecIdPCMALAW, Iface.int 0x90) ∈ SupportedCodecs u := by
    simp [SupportedCodecs, StreamTypeAudioG711A]
  obtain ⟨h₁, h₂⟩ := round_trip_in_table u ρ (SupportedCodecs u) hd
    (supportedCodecs_injective u) u.AVCodecIdPCMALAW 0x90 hmem
  have ha : u.AVCodecIdPCMALAW ≥ u.AVCodecIdFIRSTAUDIO := hp.1 _ (by simp [Utils.audioIds])
  rw [if_pos ha] at h₂
  have hkey : (0x90 : Int) ∉ (initialized u p).streamTypes.map Prod.fst := by
    show (0x90 : Int) ∉ [(0x01 : Int), 0x02, 0x03, 0x04, 0x05, 0x06, 0x0F, 0x10, 0x1B, 0x24,
      0x42, 0x81]
    decide
  have hidx := intMapIndex_absent _ _ hkey
  refine ⟨h₁, h₂, hkey, ?_, ?_⟩
  · simp only [isAudio, hidx]
    simp [Ne.symm hA0]
  · simp only [isVideo, hidx]
    simp [Ne.symm hV0, Ne.symm hH0]

/-- C8, at the sample constants and the source range order. -/
theorem classification_misses_g711a_witness :
    (StreamType2AVCodecID sampleUtils RangeOrder.source 0x90
      (initialized sampleUtils sampleStreamIDs)).1
      = (sampleUtils.AVCodecIdPCMALAW, .AVMediaTypeAudio, none) ∧
    (isAudio sampleStreamIDs 0x90 (initialized sampleUtils sampleStreamIDs)).1 = false :=
  have h := classification_misses_g711a sampleUtils sampleStreamIDs RangeOrder.source
    (by decide) (by decide) (by decide) (by decide) (by decide)
  ⟨h.2.1, h.2.2.2.1⟩

/-- C9. Uniqueness of mappings: `SupportedCodecs` and `TSSupportedCodecs` are each
injective, no two distinct codec ids of one table map to the same stream type
value; hence two codecs on which the forward lookup of one format succeeds with
the same stream type are the same codec. -/
theorem tables_injective (u : Utils) (p : StreamIDs) :
    (initialized u p).SupportedCodecs.Injective ∧
    (initialized u p).TSSupportedCodecs.Injective ∧
    (∀ (c₁ c₂ : AVCodecID) (t : Int),
      (AVCodecID2StreamType c₁ (initialized u p)).1 = .returns (t, none) →
      (AVCodecID2StreamType c₂ (initialized u p)).1 = .returns (t, none) → c₁ = c₂) ∧
    (∀ (c₁ c₂ : AVCodecID) (t : Int),
      (TSAVCodecID2StreamType c₁ (initialized u p)).1 = .returns (t, none) →
      (TSAVCodecID2StreamType c₂ (initialized u p)).1 = .returns (t, none) → c₁ = c₂) := by
  have hfun : ∀ codecs : Codecs, codecs.Injective → ∀ (c₁ c₂ : AVCodecID) (t : Int),
      AVCodecID2StreamTypeFromCodecs c₁ codecs = .returns (t, none) →
      AVCodecID2StreamTypeFromCodecs c₂ codecs = .returns (t, none) → c₁ = c₂ := by
    intro codecs hinj c₁ c₂ t h₁ h₂
    exact hinj c₁ c₂ _
      (mem_of_lookup_eq_some _ _ _ ((forward_success_iff codecs c₁ t).mp h₁))
      (mem_of_lookup_eq_some _ _ _ ((forward_success_iff codecs c₂ t).mp h₂))
  exact ⟨supportedCodecs_injective u, tsSupportedCodecs_injective u,
    hfun _ (supportedCodecs_injective u), hfun _ (tsSupportedCodecs_injective u)⟩

/-- C10. Soundness of the reverse scan: for every table with distinct keys,
every stream type and every range order, if `StreamType2AVCodecIDFromCodecs`
succeeds with codec `k`, then `k` is a key of the table, the table holds the int
`streamType` under `k`, and `(k, streamType)` is the first entry in the range
order whose value equals `streamType`. -/
theorem reverse_scan_sound (u : Utils) (ρ : RangeOrder) (codecs : Codecs)
    (hd : MapKeysDistinct codecs) (streamType : Int) (k : AVCodecID) (m : AVMediaType)
    (hok : StreamType2AVCodecIDFromCodecs u ρ streamType codecs = (k, m, none)) :
    k ∈ codecs.keys ∧ codecs.lookup k = some (Iface.int streamType) ∧
    ∃ pre post, ρ.enum codecs = pre ++ (k, Iface.int streamType) :: post ∧
      ∀ e ∈ pre, e.2 ≠ Iface.int streamType := by
  unfold StreamType2AVCodecIDFromCodecs at hok
  rcases rangeScan_spec u streamType (ρ.enum codecs) with
    ⟨_, hres⟩ | ⟨pre, k', post, hl, hpre, hres⟩
  · rw [hres] at hok
    simp at hok
  · rw [hres] at hok
    simp only [Prod.mk.injEq, and_true] at hok
    obtain ⟨hk, _⟩ := hok
    subst hk
    have hmem : (k', Iface.int streamType) ∈ codecs := by
      apply (ρ.perm codecs).mem_iff.mp
      rw [hl]; simp
    exact ⟨List.mem_map.mpr ⟨_, hmem, rfl⟩, lookup_eq_some_of_mem codecs hd k' _ hmem,
      pre, post, hl, hpre⟩

/-- C10, on the PS table at the sample constants, scanned last to first for the
stream type `0x0F`: the scan passes eight entries and stops at AAC. -/
theorem reverse_scan_sound_witness :
    MapKeysDistinct (SupportedCodecs sampleUtils) ∧
    StreamType2AVCodecIDFromCodecs sampleUtils RangeOrder.reversed 0x0F
      (SupportedCodecs sampleUtils) = (0x15002, .AVMediaTypeAudio, none) ∧
    (SupportedCodecs sampleUtils).lookup 0x15002 = some (Iface.int 0x0F) :=
  ⟨by decide, by decide,
    (reverse_scan_sound sampleUtils RangeOrder.reversed (SupportedCodecs sampleUtils)
      (by decide) 0x0F 0x15002 .AVMediaTypeAudio (by decide)).2.1⟩

/-- C11. Order dependence on collision: for every table in which two distinct
codec ids `k₁` and `k₂` hold the same stream type `t`, there are two range orders
under which `StreamType2AVCodecIDFromCodecs(t, codecs)` succeeds and returns
different codec ids, `k₁` under the one and `k₂` under the other. -/
theorem order_dependence_on_collision (u : Utils) (codecs : Codecs) (t : Int)
    (k₁ k₂ : AVCodecID) (hne : k₁ ≠ k₂) (h₁ : (k₁, Iface.int t) ∈ codecs)
    (h₂ : (k₂, Iface.int t) ∈ codecs) :
    ∃ ρ₁ ρ₂ : RangeOrder,
      (StreamType2AVCodecIDFromCodecs u ρ₁ t codecs).1 = k₁ ∧
      (StreamType2AVCodecIDFromCodecs u ρ₁ t codecs).2.2 = none ∧
      (StreamType2AVCodecIDFromCodecs u ρ₂ t codecs).1 = k₂ ∧
      (StreamType2AVCodecIDFromCodecs u ρ₂ t codecs).2.2 = none ∧
      (StreamType2AVCodecIDFromCodecs u ρ₁ t codecs).1
        ≠ (StreamType2AVCodecIDFromCodecs u ρ₂ t codecs).1 := by
  refine ⟨RangeOrder.keyFirst k₁, RangeOrder.keyFirst k₂, ?_⟩
  rw [rangeScan_keyFirst u codecs k₁ t h₁, rangeScan_keyFirst u codecs k₂ t h₂]
  exact ⟨rfl, rfl, rfl, rfl, hne⟩

/-- C11, on a table that stores `0x1B` under both 27 (H264) and 173 (HEVC). -/
theorem order_dependence_on_collision_witness :
    MapKeysDistinct [(27, Iface.int 0x1B), (173, Iface.int 0x1B)] ∧
    ∃ ρ₁ ρ₂ : RangeOrder,
      (StreamType2AVCodecIDFromCodecs sampleUtils ρ₁ 0x1B
        [(27, Iface.int 0x1B), (173, Iface.int 0x1B)]).1 = 27 ∧
      (StreamType2AVCodecIDFromCodecs sampleUtils ρ₁ 0x1B
        [(27, Iface.int 0x1B), (173, Iface.int 0x1B)]).2.2 = none ∧
      (StreamType2AVCodecIDFromCodecs sampleUtils ρ₂ 0x1B
        [(27, Iface.int 0x1B), (173, Iface.int 0x1B)]).1 = 173 ∧
      (StreamType2AVCodecIDFromCodecs sampleUtils ρ₂ 0x1B
        [(27, Iface.int 0x1B), (173, Iface.int 0x1B)]).2.2 = none ∧
      (StreamType2AVCodecIDFromCodecs sampleUtils ρ₁ 0x1B
        [(27, Iface.int 0x1B), (173, Iface.int 0x1B)]).1
        ≠ (StreamType2AVCodecIDFromCodecs sampleUtils ρ₂ 0x1B
          [(27, Iface.int 0x1B), (173, Iface.int 0x1B)]).1 :=
  ⟨by decide,
    order_dependence_on_collision sampleUtils [(27, Iface.int 0x1B), (173, Iface.int 0x1B)]
      0x1B 27 173 (by decide) (by decide) (by decide)⟩

/-- C12. Every stream type a format table can produce is in the range 0–255:
whenever `AVCodecID2StreamType` or `TSAVCodecID2StreamType` succeeds with `t`,
`0 <= t <= 255`; so neither returns the failure value `-1` with a nil error. -/
theorem stream_types_in_byte_range (u : Utils) (p : StreamIDs) :
    (∀ (c : AVCodecID) (t : Int),
      (AVCodecID2StreamType c (initialized u p)).1 = .returns (t, none) → 0 ≤ t ∧ t ≤ 255) ∧
    (∀ (c : AVCodecID) (t : Int),
      (TSAVCodecID2StreamType c (initialized u p)).1 = .returns (t, none) →
        0 ≤ t ∧ t ≤ 255) ∧
    (∀ c : AVCodecID, (AVCodecID2StreamType c (initialized u p)).1 ≠ .returns (-1, none)) ∧
    (∀ c : AVCodecID,
      (TSAVCodecID2StreamType c (initialized u p)).1 ≠ .returns (-1, none)) := by
  have hps : ∀ (c : AVCodecID) (t : Int),
      (AVCodecID2StreamType c (initialized u p)).1 = .returns (t, none) →
        0 ≤ t ∧ t ≤ 255 := by
    intro c t h
    exact supportedCodecs_value_range u c t (mem_of_forward_success (SupportedCodecs u) c t h)
  have hts : ∀ (c : AVCodecID) (t : Int),
      (TSAVCodecID2StreamType c (initialized u p)).1 = .returns (t, none) →
        0 ≤ t ∧ t ≤ 255 := by
    intro c t h
    exact supportedCodecs_value_range u c t
      (tsSupportedCodecs_subset u _ (mem_of_forward_success (TSSupportedCodecs u) c t h))
  refine ⟨hps, hts, ?_, ?_⟩
  · intro c h
    have := (hps c (-1) h).1
    omega
  · intro c h
    have := (hts c (-1) h).1
    omega

/-- C13. No lookup mutates a table: each of `AVCodecID2StreamType`,
`StreamType2AVCodecID`, `TSAVCodecID2StreamType`, `TSStreamType2AVCodecID`,
`isAudio` and `isVideo` hands back the package state it was given, so
`SupportedCodecs`, `TSSupportedCodecs` and `streamTypes` are unchanged, for every
state, argument and range order, on success and on error alike. -/
theorem lookups_preserve_tables (u : Utils) (p : StreamIDs) (ρ : RangeOrder) (g : Globals)
    (id : AVCodecID) (streamType s : Int) :
    (AVCodecID2StreamType id g).2 = g ∧
    (StreamType2AVCodecID u ρ streamType g).2 = g ∧
    (TSAVCodecID2StreamType id g).2 = g ∧
    (TSStreamType2AVCodecID u ρ streamType g).2 = g ∧
    (isAudio p s g).2 = g ∧
    (isVideo p s g).2 = g ∧
    (AVCodecID2StreamType id g).2.SupportedCodecs = g.SupportedCodecs ∧
    (StreamType2AVCodecID u ρ streamType g).2.TSSupportedCodecs = g.TSSupportedCodecs ∧
    (isAudio p s g).2.streamTypes = g.streamTypes := by
  simp only [AVCodecID2StreamType, StreamType2AVCodecID, TSAVCodecID2StreamType,
    TSStreamType2AVCodecID, isAudio, isVideo, and_self]

/-- C14. Determinism of the built-in reverse lookups: for every integer `t`,
`StreamType2AVCodecID(t)` and `TSStreamType2AVCodecID(t)` return the same codec,
media type and error under any two range orders. -/
theorem builtin_reverse_lookup_deterministic (u : Utils) (p : StreamIDs)
    (ρ₁ ρ₂ : RangeOrder) (t : Int) :
    (StreamType2AVCodecID u ρ₁ t (initialized u p)).1
      = (StreamType2AVCodecID u ρ₂ t (initialized u p)).1 ∧
    (TSStreamType2AVCodecID u ρ₁ t (initialized u p)).1
      = (TSStreamType2AVCodecID u ρ₂ t (initialized u p)).1 :=
  ⟨reverse_scan_order_independent u (SupportedCodecs u) (supportedCodecs_injective u) ρ₁ ρ₂ t,
    reverse_scan_order_independent u (TSSupportedCodecs u) (tsSupportedCodecs_injective u)
      ρ₁ ρ₂ t⟩

/-- C15. For the TS format classification agrees with codec resolution: when
the codec constants respect the audio boundary and the stream-id classes are told
apart, for every integer `t` on which `TSStreamType2AVCodecID(t)` succeeds with
media type `m`, under every range order, `isAudio(t)` is true iff `m` is Audio
and `isVideo(t)` is true iff `m` is Video. -/
theorem ts_classification_agrees (u : Utils) (p : StreamIDs) (hp : u.Partitioned)
    (hsep : p.Separated) (ρ : RangeOrder) (t : Int) (k : AVCodecID) (m : AVMediaType)
    (hok : (TSStreamType2AVCodecID u ρ t (initialized u p)).1 = (k, m, none)) :
    ((isAudio p t (initialized u p)).1 = true ↔ m = .AVMediaTypeAudio) ∧
    ((isVideo p t (initialized u p)).1 = true ↔ m = .AVMediaTypeVideo) := by
  have hcls := classification_after_init u p hsep t
  rw [hcls.1, hcls.2]
  have hscan : rangeScan u t (ρ.enum (TSSupportedCodecs u)) = (k, m, none) := hok
  rcases rangeScan_spec u t (ρ.enum (TSSupportedCodecs u)) with
    ⟨_, hres⟩ | ⟨pre, k', post, hl, _, hres⟩
  · rw [hres] at hscan
    simp at hscan
  · rw [hres] at hscan
    simp only [Prod.mk.injEq, and_true] at hscan
    obtain ⟨hk, hm⟩ := hscan
    subst hk
    have hmem : (k', Iface.int t) ∈ TSSupportedCodecs u := by
      apply (ρ.perm (TSSupportedCodecs u)).mem_iff.mp
      rw [hl]; simp
    obtain ⟨haud, hvid⟩ := hp
    simp only [Utils.audioIds, Utils.videoIds, List.mem_cons, List.mem_singleton,
      List.not_mem_nil, or_false, forall_eq_or_imp, forall_eq] at haud hvid
    simp only [TSSupportedCodecs, List.mem_cons, List.mem_singleton, List.not_mem_nil,
      or_false, Prod.mk.injEq, Iface.int.injEq, StreamTypeAudioMPEG1, StreamTypeAudioAAC,
      StreamTypeVideoH264, StreamTypeVideoHEVC, StreamTypeVideoMpeg4] at hmem
    rcases hmem with ⟨h₁, h₂⟩ | ⟨h₁, h₂⟩ | ⟨h₁, h₂⟩ | ⟨h₁, h₂⟩ | ⟨h₁, h₂⟩
    · subst h₁ h₂
      rw [if_pos haud.2.1] at hm
      subst hm
      decide
    · subst h₁ h₂
      rw [if_pos haud.1] at hm
      subst hm
      decide
    · subst h₁ h₂
      rw [if_neg (not_le.mpr hvid.1)] at hm
      subst hm
      decide
    · subst h₁ h₂
      rw [if_neg (not_le.mpr hvid.2.1)] at hm
      subst hm
      decide
    · subst h₁ h₂
      rw [if_neg (not_le.mpr hvid.2.2)] at hm
      subst hm
      decide

/-- C15, at the sample constants and the reversed range order, for the stream
type `0x0F` (AAC). -/
theorem ts_classification_agrees_witness :
    sampleUtils.Partitioned ∧ sampleStreamIDs.Separated ∧
    (TSStreamType2AVCodecID sampleUtils RangeOrder.reversed 0x0F
      (initialized sampleUtils sampleStreamIDs)).1 = (0x15002, .AVMediaTypeAudio, none) ∧
    ((isAudio sampleStreamIDs 0x0F (initialized sampleUtils sampleStreamIDs)).1 = true
      ↔ AVMediaType.AVMediaTypeAudio = .AVMediaTypeAudio) ∧
    ((isVideo sampleStreamIDs 0x0F (initialized sampleUtils sampleStreamIDs)).1 = true
      ↔ AVMediaType.AVMediaTypeAudio = .AVMediaTypeVideo) :=
  ⟨by decide, by decide, by decide,
    ts_classification_agrees sampleUtils sampleStreamIDs (by decide) (by decide)
      RangeOrder.reversed 0x0F 0x15002 .AVMediaTypeAudio (by decide)⟩

/-- C16. The H.264-specific disjunct of `isVideo` is dead: when `StreamIDH624`
differs from the video, audio and private classes and from `0`, no entry of the
`streamTypes` table built by `init` has class `StreamIDH624`, the stream type
`0x1B` of H.264 is stored as `StreamIDVideo`, and for every int `s`,
`isVideo(s)` equals `streamTypes[s] == StreamIDVideo`. -/
theorem h264_disjunct_dead (u : Utils) (p : StreamIDs)
    (hHV : p.StreamIDH624 ≠ p.StreamIDVideo) (hHA : p.StreamIDH624 ≠ p.StreamIDAudio)
    (hHP : p.StreamIDH624 ≠ p.StreamIDPrivateStream1) (hH0 : p.StreamIDH624 ≠ 0) :
    (∀ e ∈ (initialized u p).streamTypes, e.2 ≠ p.StreamIDH624) ∧
    intMapIndex (initialized u p).streamTypes 0x1B = p.StreamIDVideo ∧
    (∀ s : Int, (isVideo p s (initialized u p)).1
      = (intMapIndex (initialized u p).streamTypes s == p.StreamIDVideo)) ∧
    (∀ s : Int, isVideo p s (initialized u p) = isVideoClassOnly p s (initialized u p)) := by
  have hent : ∀ e ∈ (initialized u p).streamTypes, e.2 ≠ p.StreamIDH624 := by
    intro e he
    rcases streamTypes_classes_after_init u p e he with h | h | h <;> rw [h]
    · exact Ne.symm hHV
    · exact Ne.symm hHA
    · exact Ne.symm hHP
  have hdead : ∀ s : Int,
      (intMapIndex (initialized u p).streamTypes s == p.StreamIDH624) = false := by
    intro s
    have hne : intMapIndex (initialized u p).streamTypes s ≠ p.StreamIDH624 := by
      rcases intMapIndex_zero_or_mem (initialized u p).streamTypes s with h0 | ⟨e, he, hev⟩
      · rw [h0]; exact Ne.symm hH0
      · rw [← hev]; exact hent e he
    simpa using hne
  refine ⟨hent, ?_, ?_, ?_⟩
  · rw [streamTypes_index_after_init]
    norm_num
  · intro s
    simp only [isVideo, hdead s, Bool.or_false]
  · intro s
    simp only [isVideo, isVideoClassOnly, hdead s, Bool.or_false]

/-- C16, at the sample stream ids, for the stream type `0x1B`. -/
theorem h264_disjunct_dead_witness :
    sampleStreamIDs.StreamIDH624 ≠ sampleStreamIDs.StreamIDVideo ∧
    sampleStreamIDs.StreamIDH624 ≠ 0 ∧
    (isVideo sampleStreamIDs 0x1B (initialized sampleUtils sampleStreamIDs)).1
      = (intMapIndex (initialized sampleUtils sampleStreamIDs).streamTypes 0x1B
          == sampleStreamIDs.StreamIDVideo) :=
  ⟨by decide, by decide,
    (h264_disjunct_dead sampleUtils sampleStreamIDs (by decide) (by decide) (by decide)
      (by decide)).2.2.1 0x1B⟩

/-- C17. The type assertion cannot fail on the built-in tables: every value
stored in `SupportedCodecs` and `TSSupportedCodecs` has dynamic type `int`, so
for every codec id `AVCodecID2StreamType` and `TSAVCodecID2StreamType` return (a
value or an error) and never panic; whereas on a table that holds a value that
is not an int under the key `id`, `AVCodecID2StreamTypeFromCodecs(id, table)`
panics, as it does on the one-entry table that stores a string under 27. -/
theorem type_assertion_safe_on_builtin_tables (u : Utils) (p : StreamIDs) :
    (initialized u p).SupportedCodecs.AllInts ∧
    (initialized u p).TSSupportedCodecs.AllInts ∧
    (∀ id : AVCodecID, ∃ n e,
      (AVCodecID2StreamType id (initialized u p)).1 = .returns (n, e)) ∧
    (∀ id : AVCodecID, ∃ n e,
      (TSAVCodecID2StreamType id (initialized u p)).1 = .returns (n, e)) ∧
    (∀ id : AVCodecID, (AVCodecID2StreamType id (initialized u p)).1 ≠ .panics) ∧
    (∀ id : AVCodecID, (TSAVCodecID2StreamType id (initialized u p)).1 ≠ .panics) ∧
    (∀ (codecs : Codecs) (id : AVCodecID) (v : Iface), MapKeysDistinct codecs →
      (id, v) ∈ codecs → (∀ n, v ≠ Iface.int n) →
      AVCodecID2StreamTypeFromCodecs id codecs = .panics) ∧
    AVCodecID2StreamTypeFromCodecs 27 [(27, Iface.str "h264")] = .panics ∧
    AVCodecID2StreamTypeFromCodecs 27 [(27, Iface.nil)] = .panics := by
  have hps := forward_returns_of_allInts (SupportedCodecs u) (supportedCodecs_allInts u)
  have hts := forward_returns_of_allInts (TSSupportedCodecs u) (tsSupportedCodecs_allInts u)
  refine ⟨supportedCodecs_allInts u, tsSupportedCodecs_allInts u, hps, hts, ?_, ?_, ?_,
    rfl, rfl⟩
  · intro id h
    obtain ⟨n, e, hr⟩ := hps id
    have h' : AVCodecID2StreamTypeFromCodecs id (SupportedCodecs u) = .panics := h
    rw [hr] at h'
    cases h'
  · intro id h
    obtain ⟨n, e, hr⟩ := hts id
    have h' : AVCodecID2StreamTypeFromCodecs id (TSSupportedCodecs u) = .panics := h
    rw [hr] at h'
    cases h'
  · intro codecs id v hd hmem hv
    have hl := lookup_eq_some_of_mem codecs hd id v hmem
    unfold AVCodecID2StreamTypeFromCodecs
    rw [hl]
    cases v with
    | int n => exact absurd rfl (hv n)
    | str _ => rfl
    | nil => rfl

end Mpeg
